import Mathlib

/-!
Verification development for the `find-pending-retryables` script of the
orbit-monitoring-tools repository.

The script is shallowly embedded below.  Byte strings are `List Nat`
(each entry a byte value), and the JavaScript hex strings manipulated by
the script (the viem helpers `toHex`, `trim`, `pad`, and the
`Number(field) == 0` / `Buffer.from(field.substring(2), 'hex')` steps of
`calculateCreateRetryableTransactionHash`) are embedded as `List Char`
hex strings, so that the character-level behaviour of the source is kept.
Keccak-256 and the RLP encoder used by the script (viem `keccak256` and
`toRlp`) are implemented in full.
-/

set_option maxRecDepth 40000

namespace PendingRetryables

/-- Hex digit characters, lowercase, as produced by viem `toHex`: code
48 is the character 0, code 87 + 10 the character a. -/
def hexDigitChar (n : Nat) : Char :=
  if n < 10 then Char.ofNat (48 + n) else Char.ofNat (87 + min n 15)

/-- Value of one hex character, case-insensitive; `none` on a character
that is not a hex digit (Buffer hex decoding stops at such a
character). -/
def hexCharValue (c : Char) : Option Nat :=
  if 48 ≤ c.toNat ∧ c.toNat ≤ 57 then some (c.toNat - 48)
  else if 97 ≤ c.toNat ∧ c.toNat ≤ 102 then some (c.toNat - 87)
  else if 65 ≤ c.toNat ∧ c.toNat ≤ 70 then some (c.toNat - 55)
  else none

/-- Fuel-based worker for `natHexChars`; the fuel is structural so the
function reduces inside the kernel.  With fuel at least `n` the fuel
never runs out, since `n / 16 < n` for `n ≥ 16`. -/
def natHexAux : Nat → Nat → List Char
  | 0, n => [hexDigitChar n]
  | f + 1, n =>
    if n < 16 then [hexDigitChar n]
    else natHexAux f (n / 16) ++ [hexDigitChar (n % 16)]

/-- Minimal hex representation of a natural number, as written by the
JavaScript `value.toString(16)`: no leading zero digits, and `0` gives
the single digit `0`. -/
def natHexChars (n : Nat) : List Char :=
  natHexAux n n

/-- viem `toHex` on a bigint: the string `0x` followed by the minimal hex
digits of the value. -/
def toHex (value : Nat) : List Char :=
  '0' :: 'x' :: natHexChars value

/-- Hex digits of a byte string, two lowercase digits per byte. -/
def bytesToHexChars (bs : List Nat) : List Char :=
  (bs.map (fun b => [hexDigitChar (b % 256 / 16), hexDigitChar (b % 16)])).flatten

/-- The digit-stripping loop of viem `trim` (dir left): leading `0` hex
characters are dropped while more than one character remains. -/
def dropLeadingHexZeros : List Char → List Char
  | [] => []
  | [c] => [c]
  | c :: c2 :: rest =>
    if c == '0' then dropLeadingHexZeros (c2 :: rest) else c :: c2 :: rest

/-- The final step of viem `trim` on a hex string: a stripped digit list
of odd length gets one `0` digit back so bytes stay aligned. -/
def evenPadHex (s : List Char) : List Char :=
  if s.length % 2 == 1 then '0' :: s else s

/-- viem `trim` (dir left) on a `0x`-prefixed hex string. -/
def trim (hex : List Char) : List Char :=
  '0' :: 'x' :: evenPadHex (dropLeadingHexZeros (hex.drop 2))

/-- viem `pad` (dir left) to `size` bytes, total: the oversized case, in
which viem throws SizeExceedsPaddingSizeError, is left unpadded here;
every call site below feeds values decoded from uint256 slots, which fit
whenever `size` is 32. -/
def padHexTo (size : Nat) (hex : List Char) : List Char :=
  '0' :: 'x' :: (List.replicate (2 * size - (hex.drop 2).length) '0' ++ hex.drop 2)

/-- Big-endian byte value of a byte string. -/
def beValue (bs : List Nat) : Nat :=
  bs.foldl (fun acc b => acc * 256 + b) 0

/-- Fuel-based worker for `beBytesOfNat`; structural in the fuel so it
reduces inside the kernel. -/
def beBytesAux : Nat → Nat → List Nat
  | _, 0 => []
  | 0, _ + 1 => []
  | f + 1, n + 1 => beBytesAux f ((n + 1) / 256) ++ [(n + 1) % 256]

/-- Minimal big-endian byte representation of a natural number; `0` gives
the empty byte string. -/
def beBytesOfNat (n : Nat) : List Nat :=
  beBytesAux n n

/-- Buffer hex decoding (`Buffer.from(s, 'hex')`): characters are taken
two at a time; decoding stops at the first pair containing a non-hex
character, and a dangling single character is dropped. -/
def hexPairsToBytes : List Char → List Nat
  | c1 :: c2 :: rest =>
    match hexCharValue c1, hexCharValue c2 with
    | some h, some l => (16 * h + l) :: hexPairsToBytes rest
    | _, _ => []
  | _ => []

/-! ## Keccak-256 (as used by viem `keccak256`: original Keccak padding) -/

/-- All-ones 64-bit lane, used for bitwise complement. -/
def u64full : Nat := 2 ^ 64 - 1

/-- Left rotation of a 64-bit lane. -/
def rotl64 (x n : Nat) : Nat :=
  ((x <<< n) ||| (x >>> (64 - n))) % 2 ^ 64

/-- Lane `(x, y)` of a Keccak state held as a 25-element list. -/
def lane (st : List Nat) (x y : Nat) : Nat :=
  st.getD (x % 5 + 5 * (y % 5)) 0

/-- Keccak theta step. -/
def keccakTheta (st : List Nat) : List Nat :=
  let c : Nat → Nat := fun x =>
    lane st x 0 ^^^ lane st x 1 ^^^ lane st x 2 ^^^ lane st x 3 ^^^ lane st x 4
  let d : Nat → Nat := fun x => c ((x + 4) % 5) ^^^ rotl64 (c ((x + 1) % 5)) 1
  (List.range 25).map (fun i => st.getD i 0 ^^^ d (i % 5))

/-- Keccak rotation offset of the lane at index `x + 5 * y`. -/
def keccakRho (i : Nat) : Nat :=
  match i with
  | 0 => 0
  | 1 => 1
  | 2 => 62
  | 3 => 28
  | 4 => 27
  | 5 => 36
  | 6 => 44
  | 7 => 6
  | 8 => 55
  | 9 => 20
  | 10 => 3
  | 11 => 10
  | 12 => 43
  | 13 => 25
  | 14 => 39
  | 15 => 41
  | 16 => 45
  | 17 => 15
  | 18 => 21
  | 19 => 8
  | 20 => 18
  | 21 => 2
  | 22 => 61
  | 23 => 56
  | 24 => 14
  | _ => 0

/-- Keccak rho and pi steps: lane `(x, y)` lands rotated at
`(y, 2x + 3y)`. -/
def keccakRhoPi (st : List Nat) : List Nat :=
  (List.range 25).map (fun j =>
    let tx := j % 5
    let ty := j / 5
    let sx := (tx + 3 * ty) % 5
    let sy := tx
    rotl64 (lane st sx sy) (keccakRho (sx % 5 + 5 * sy)))

/-- Keccak chi step. -/
def keccakChi (st : List Nat) : List Nat :=
  (List.range 25).map (fun j =>
    let x := j % 5
    let y := j / 5
    lane st x y ^^^ ((lane st (x + 1) y ^^^ u64full) &&& lane st (x + 2) y))

/-- Keccak round constants, without leading zero digits. -/
def keccakRC : List Nat :=
  [0x1, 0x8082, 0x800000000000808a, 0x8000000080008000,
   0x808b, 0x80000001, 0x8000000080008081, 0x8000000000008009,
   0x8a, 0x88, 0x80008009, 0x8000000a,
   0x8000808b, 0x800000000000008b, 0x8000000000008089, 0x8000000000008003,
   0x8000000000008002, 0x8000000000000080, 0x800a, 0x800000008000000a,
   0x8000000080008081, 0x8000000000008080, 0x80000001, 0x8000000080008008]

/-- One Keccak round: theta, rho, pi, chi, iota. -/
def keccakRound (st : List Nat) (rc : Nat) : List Nat :=
  match keccakChi (keccakRhoPi (keccakTheta st)) with
  | a0 :: rest => (a0 ^^^ rc) :: rest
  | [] => []

/-- The full Keccak-f[1600] permutation. -/
def keccakF (st : List Nat) : List Nat :=
  keccakRC.foldl keccakRound st

/-- Original Keccak multi-rate padding with domain byte 0x01, rate 136
bytes (this is the Ethereum Keccak-256 padding, not the SHA-3 one). -/
def keccakPad (msg : List Nat) : List Nat :=
  let r := 136 - msg.length % 136
  if r = 1 then msg ++ [0x81]
  else msg ++ [0x01] ++ List.replicate (r - 2) 0 ++ [0x80]

/-- Little-endian value of up to eight bytes. -/
def leLaneValue (bs : List Nat) : Nat :=
  bs.foldr (fun b acc => acc * 256 + b) 0

/-- The 17 lanes of one 136-byte rate block, little-endian per lane. -/
def blockLanes (block : List Nat) : List Nat :=
  (List.range 17).map (fun i => leLaneValue ((block.drop (8 * i)).take 8))

/-- Absorb one 136-byte block into the state. -/
def absorbBlock (st : List Nat) (block : List Nat) : List Nat :=
  keccakF ((List.range 25).map (fun i => st.getD i 0 ^^^ (blockLanes block).getD i 0))

/-- Absorb a padded message block by block; the fuel argument (any bound
on the number of blocks) makes the recursion structural. -/
def absorbChunks : Nat → List Nat → List Nat → List Nat
  | _, st, [] => st
  | 0, st, _ => st
  | f + 1, st, b :: rest =>
    absorbChunks f (absorbBlock st ((b :: rest).take 136)) ((b :: rest).drop 136)

/-- Little-endian bytes of one 64-bit lane. -/
def laneLeBytes (v : Nat) : List Nat :=
  (List.range 8).map (fun i => (v >>> (8 * i)) % 256)

/-- Keccak-256 of a byte string (viem `keccak256`). -/
def keccak256 (msg : List Nat) : List Nat :=
  let padded := keccakPad msg
  let st := absorbChunks padded.length (List.replicate 25 0) padded
  ((st.take 4).map laneLeBytes).flatten

/-! ## RLP (viem `toRlp` on a list of byte strings) -/

/-- RLP encoding of one byte string. -/
def rlpEncodeBytes (bs : List Nat) : List Nat :=
  match bs with
  | [b] => if b < 128 then [b] else [129, b]
  | _ =>
    if bs.length ≤ 55 then (128 + bs.length) :: bs
    else (183 + (beBytesOfNat bs.length).length) :: (beBytesOfNat bs.length ++ bs)

/-- RLP encoding of a flat list of byte strings (the only shape the
script passes to viem `toRlp`). -/
def toRlp (items : List (List Nat)) : List Nat :=
  let body := (items.map rlpEncodeBytes).flatten
  if body.length ≤ 55 then (192 + body.length) :: body
  else (247 + (beBytesOfNat body.length).length) :: (beBytesOfNat body.length ++ body)

/-! ## Hash Deriver (`calculateCreateRetryableTransactionHash`)

The script keeps every field as a JavaScript `0x...` hex string until the
final `byteArrayFields` map.  The embedding does the same with `List
Char` hex strings.  Address-valued inputs are kept as 20-byte lists and
rendered in lowercase hex; the script holds EIP-55 mixed-case strings,
but both `Number(field)` and `Buffer.from(field, 'hex')` are
case-insensitive, so the byte-level behaviour is identical. -/

/-- Input record of `calculateCreateRetryableTransactionHash`, with the
fields of the source in source order. -/
structure RetryableInformation where
  orbitChainId : Nat
  fromAddress : List Nat
  messageNumber : Nat
  baseFee : Nat
  destAddress : List Nat
  orbitChainCallValue : Nat
  callValue : Nat
  maxSubmissionFee : Nat
  excessFeeRefundAddress : List Nat
  callValueRefundAddress : List Nat
  gasLimit : Nat
  maxFeePerGas : Nat
  data : List Char
deriving DecidableEq, Repr

/-- The inner helper `formatNumber` of the script:
`trim(toHex(value))`. -/
def formatNumber (value : Nat) : List Char :=
  trim (toHex value)

/-- Hex string of an address held as its 20 raw bytes. -/
def addressHex (a : List Nat) : List Char :=
  '0' :: 'x' :: bytesToHexChars a

/-- The `fields` list of the script, in source order: 13 hex strings. -/
def retryableFields (r : RetryableInformation) : List (List Char) :=
  [formatNumber r.orbitChainId,
   padHexTo 32 (formatNumber r.messageNumber),
   addressHex r.fromAddress,
   formatNumber r.baseFee,
   formatNumber r.callValue,
   formatNumber r.maxFeePerGas,
   formatNumber r.gasLimit,
   addressHex r.destAddress,
   formatNumber r.orbitChainCallValue,
   addressHex r.callValueRefundAddress,
   formatNumber r.maxSubmissionFee,
   addressHex r.excessFeeRefundAddress,
   r.data]

/-- The JavaScript test `Number(field) == 0` on a `0x...` hex string:
true exactly when the digits after the prefix are non-empty and all
zero.  (`Number('0x')` and `Number` of a string with a non-hex character
are NaN, which is not equal to 0; a non-zero hex value converts to a
non-zero float.) -/
def jsNumberEqZero (s : List Char) : Bool :=
  !(s.drop 2).isEmpty && (s.drop 2).all (fun c => c == '0')

/-- One step of the `byteArrayFields` map of the script:
`Number(field) == 0 ? new Uint8Array() :
 new Uint8Array(Buffer.from(field.substring(2), 'hex'))`. -/
def toByteArrayField (field : List Char) : List Nat :=
  if jsNumberEqZero field then [] else hexPairsToBytes (field.drop 2)

/-- The `byteArrayFields` list of the script. -/
def byteArrayFields (r : RetryableInformation) : List (List Nat) :=
  (retryableFields r).map toByteArrayField

/-- `calculateCreateRetryableTransactionHash`: Keccak-256 of the type
byte 0x69 followed by the RLP encoding of the 13 encoded fields. -/
def calculateCreateRetryableTransactionHash (r : RetryableInformation) : List Nat :=
  keccak256 (0x69 :: toRlp (byteArrayFields r))

/-! ## Message Codec (`parseMessageData`) -/

/-- Failure modes of `parseMessageData`: `decodeAbiParameters` throws
when the data cannot supply nine 32-byte words, and the viem `pad` used
to build an address from a uint256 slot throws when the value does not
fit in 20 bytes. -/
inductive ParseError
  | dataSizeTooSmall
  | sizeExceedsPaddingSize
deriving DecidableEq, Repr

/-- The record built by `parseMessageData`.  Like the script, the call
data is a hex string: the script builds it with a `substring` on the
full raw hex string, and the result need not be well-formed hex when the
declared length exceeds the payload. -/
structure MessageData where
  destAddress : List Nat
  orbitChainCallValue : Nat
  callValue : Nat
  maxSubmissionFee : Nat
  excessFeeRefundAddress : List Nat
  callValueRefundAddress : List Nat
  gasLimit : Nat
  maxFeePerGas : Nat
  callDataLength : Nat
  data : List Char
deriving DecidableEq, Repr

/-- Value of the `i`-th 32-byte slot of the payload. -/
def slotValue (raw : List Nat) (i : Nat) : Nat :=
  beValue ((raw.drop (32 * i)).take 32)

/-- `getAddress(pad(toHex(v), { size: 20 }))`: the 20-byte address for a
uint256 slot value, or the pad failure when the value needs more than 20
bytes.  (`getAddress` only re-cases the digits.) -/
def padAddress (v : Nat) : Except ParseError (List Nat) :=
  if v < 2 ^ 160 then
    .ok (List.replicate (20 - (beBytesOfNat v).length) 0 ++ beBytesOfNat v)
  else .error .sizeExceedsPaddingSize

/-- The `data` field of `parseMessageData`:
`'0x' + rawMessageData.substring(rawMessageData.length - len * 2)`,
where the string holds the `0x` prefix and two hex characters per byte
and a negative start is clamped to 0 (which yields the whole string,
prefix included).  Natural subtraction models the clamp exactly. -/
def jsRawDataString (raw : List Nat) (len : Nat) : List Char :=
  let s := '0' :: 'x' :: bytesToHexChars raw
  '0' :: 'x' :: s.drop (s.length - 2 * len)

/-- `parseMessageData`: decode nine fixed uint256 slots, convert three of
them to addresses, and cut the call data out of the raw hex string.  No
check relates the declared call-data length to the bytes present. -/
def parseMessageData (rawMessageData : List Nat) : Except ParseError MessageData :=
  if rawMessageData.length < 9 * 32 then .error .dataSizeTooSmall
  else
    match padAddress (slotValue rawMessageData 0),
          padAddress (slotValue rawMessageData 4),
          padAddress (slotValue rawMessageData 5) with
    | .error e, _, _ => .error e
    | _, .error e, _ => .error e
    | _, _, .error e => .error e
    | .ok destAddress, .ok excessFeeRefundAddress, .ok callValueRefundAddress =>
      .ok { destAddress := destAddress
            orbitChainCallValue := slotValue rawMessageData 1
            callValue := slotValue rawMessageData 2
            maxSubmissionFee := slotValue rawMessageData 3
            excessFeeRefundAddress := excessFeeRefundAddress
            callValueRefundAddress := callValueRefundAddress
            gasLimit := slotValue rawMessageData 6
            maxFeePerGas := slotValue rawMessageData 7
            callDataLength := slotValue rawMessageData 8
            data := jsRawDataString rawMessageData (slotValue rawMessageData 8) }

/-! ## Event streams, receipts and the per-pair pipeline (`main`)

The `main` function of the script drives one asynchronous classification
per InboxMessageDelivered event and joins them with `Promise.all`.  The
embedding runs the per-event pipelines in input order; each pipeline is
a pure function of the shared inputs, so order is immaterial for the
per-pair result, and a rejected pipeline makes `await Promise.all`
throw, which the sequential `Except` composition models at the level of
the observable report. -/

/-- Decoded InboxMessageDelivered event plus the log metadata the script
reads from it (`transactionHash`, `blockNumber`). -/
structure InboxMessageDeliveredEvent where
  messageNum : Nat
  data : List Nat
  transactionHash : List Nat
  blockNumber : Nat
deriving DecidableEq, Repr

/-- Decoded arguments of a bridge MessageDelivered event. -/
structure BridgeMessageDeliveredEventArgs where
  messageIndex : Nat
  beforeInboxAcc : List Nat
  inbox : List Nat
  kind : Nat
  sender : List Nat
  messageDataHash : List Nat
  baseFeeL1 : Nat
  timestamp : Nat
deriving DecidableEq, Repr

/-- One log of a transaction receipt. -/
structure ReceiptLog where
  topics : List (List Nat)
  data : List Nat
deriving DecidableEq, Repr

/-- A transaction receipt: `status` is true for `'success'`, plus the
ordered list of emitted logs. -/
structure TransactionReceipt where
  status : Bool
  logs : List ReceiptLog
deriving DecidableEq, Repr

/-- Outcome of one `getTransactionReceipt` call: the collaborator either
answers (with a receipt or with "absent") or the RPC call fails. -/
inductive LookupOutcome
  | success (receipt : Option TransactionReceipt)
  | failure
deriving DecidableEq, Repr

/-- The receipt-lookup collaborator of the orbit-chain client. -/
def ReceiptLookup : Type :=
  List Nat → LookupOutcome

/-- A collaborator whose RPC calls always answer. -/
def pureLookup (g : List Nat → Option TransactionReceipt) : ReceiptLookup :=
  fun h => .success (g h)

/-- The six terminal statuses; the first five are pushed to
`pendingRetryables` and `REDEEMED` to `redeemedRetryables`. -/
inductive RetryableStatus
  | NOT_CREATED
  | CREATE_FAILED
  | NOT_AUTOREDEEMED
  | AUTOREDEEM_CREATE_FAILED
  | AUTOREDEEM_FAILED
  | REDEEMED
deriving DecidableEq, Repr

/-- One classification result, as pushed by the script (the redeemed
array of the script just has no status column). -/
structure RetryableResult where
  parentChainTransactionHash : List Nat
  submittedAtBlock : Nat
  orbitChainCreateTransactionHash : List Nat
  orbitChainExecuteTransactionHash : Option (List Nat)
  status : RetryableStatus
deriving DecidableEq, Repr

/-- Errors that make one per-event pipeline throw (and hence the
`Promise.all` of the script reject).  The three redeem-log errors are
the ones viem `decodeEventLog` can throw along this path:
AbiEventSignatureNotFound when topic 0 is not the selector of the ABI
item, DecodeLogTopicsMismatch when an indexed argument has no topic,
and DecodeLogDataMismatch (with the default `strict: true`) when the
data cannot supply the non-indexed words. -/
inductive PairError
  | noMatchingBridgeEvent
  | malformedPayload (e : ParseError)
  | redeemLogSignatureNotFound
  | redeemLogTopicsMismatch
  | redeemLogDataMismatch
  | lookupFailure
deriving DecidableEq, Repr

/-- The event signature string hashed by the script for the
RedeemScheduled topic. -/
def redeemScheduledEventSignature : String :=
  "RedeemScheduled(bytes32,bytes32,uint64,uint64,address,uint256,uint256)"

/-- `keccak256(toHex('RedeemScheduled(...)'))`: the topic-0 value a
RedeemScheduled log carries. -/
def RedeemScheduledEventTopic : List Nat :=
  keccak256 (redeemScheduledEventSignature.toList.map Char.toNat)

/-- The correlation step of the script:
`bridgeMessageDeliveredLogs.filter((event) => event.args.messageIndex ==
inboxMessageDeliveredEventArgs.messageNum)[0]`.  Indexing an empty
filter result gives `undefined`; reading `.args` from it then throws. -/
def correlateBridgeEvent (bridgeMessageDeliveredLogs : List BridgeMessageDeliveredEventArgs)
    (messageNum : Nat) : Option BridgeMessageDeliveredEventArgs :=
  (bridgeMessageDeliveredLogs.filter (fun ev => ev.messageIndex == messageNum)).head?

/-- `decodeEventLog` on the RedeemScheduled ABI, restricted to the field
the script reads (`retryTxHash`, the second indexed argument, at topic
index 2).  viem first looks the signature topic up against the event
selector of the ABI item, then takes one topic per indexed argument
(ticketId, retryTxHash, sequenceNum — so four topics in all, throwing
DecodeLogTopicsMismatch on a missing one), and then decodes the four
non-indexed 32-byte words from the data, throwing DecodeLogDataMismatch
(default `strict: true`) when the data is empty or too short for them. -/
def decodeRedeemScheduledRetryTxHash (log : ReceiptLog) : Except PairError (List Nat) :=
  if log.topics[0]? ≠ some RedeemScheduledEventTopic then
    .error .redeemLogSignatureNotFound
  else
    match log.topics[1]?, log.topics[2]?, log.topics[3]? with
    | some _, some retryTxHash, some _ =>
      if log.data.length < 4 * 32 then .error .redeemLogDataMismatch
      else .ok retryTxHash
    | _, _, _ => .error .redeemLogTopicsMismatch

/-- The receipt-walking part of one per-event pipeline, from the derived
create-transaction hash to a terminal status (plus the execute hash when
one was read from a RedeemScheduled log). -/
def classifyRetryable (getReceipt : ReceiptLookup) (createHash : List Nat) :
    Except PairError (RetryableStatus × Option (List Nat)) :=
  match getReceipt createHash with
  | .failure => .error .lookupFailure
  | .success none => .ok (.NOT_CREATED, none)
  | .success (some createReceipt) =>
    if createReceipt.status = false then .ok (.CREATE_FAILED, none)
    else
      match (createReceipt.logs.filter
          (fun log => log.topics[0]? == some RedeemScheduledEventTopic)).head? with
      | none => .ok (.NOT_AUTOREDEEMED, none)
      | some redeemScheduledEventLog =>
        match decodeRedeemScheduledRetryTxHash redeemScheduledEventLog with
        | .error e => .error e
        | .ok executeRetryableTransactionHash =>
          match getReceipt executeRetryableTransactionHash with
          | .failure => .error .lookupFailure
          | .success none =>
            .ok (.AUTOREDEEM_CREATE_FAILED, some executeRetryableTransactionHash)
          | .success (some executeReceipt) =>
            if executeReceipt.status = false then
              .ok (.AUTOREDEEM_FAILED, some executeRetryableTransactionHash)
            else .ok (.REDEEMED, some executeRetryableTransactionHash)

/-- One per-event pipeline of `main`: correlate, filter on message kind
9, parse the payload, derive the create hash, classify.  `.ok none`
is the early `return` for a non-retryable message kind. -/
def processInboxMessageDeliveredEvent (orbitChainId : Nat)
    (bridgeMessageDeliveredLogs : List BridgeMessageDeliveredEventArgs)
    (getReceipt : ReceiptLookup) (ev : InboxMessageDeliveredEvent) :
    Except PairError (Option RetryableResult) :=
  match correlateBridgeEvent bridgeMessageDeliveredLogs ev.messageNum with
  | none => .error .noMatchingBridgeEvent
  | some bridgeMessageDeliveredEventArgs =>
    if bridgeMessageDeliveredEventArgs.kind ≠ 9 then .ok none
    else
      match parseMessageData ev.data with
      | .error e => .error (.malformedPayload e)
      | .ok messageData =>
        let createRetryableTransactionHash := calculateCreateRetryableTransactionHash
          { orbitChainId := orbitChainId
            fromAddress := bridgeMessageDeliveredEventArgs.sender
            messageNumber := bridgeMessageDeliveredEventArgs.messageIndex
            baseFee := bridgeMessageDeliveredEventArgs.baseFeeL1
            destAddress := messageData.destAddress
            orbitChainCallValue := messageData.orbitChainCallValue
            callValue := messageData.callValue
            maxSubmissionFee := messageData.maxSubmissionFee
            excessFeeRefundAddress := messageData.excessFeeRefundAddress
            callValueRefundAddress := messageData.callValueRefundAddress
            gasLimit := messageData.gasLimit
            maxFeePerGas := messageData.maxFeePerGas
            data := messageData.data }
        match classifyRetryable getReceipt createRetryableTransactionHash with
        | .error e => .error e
        | .ok (status, executeHash) =>
          .ok (some
            { parentChainTransactionHash := ev.transactionHash
              submittedAtBlock := ev.blockNumber
              orbitChainCreateTransactionHash := createRetryableTransactionHash
              orbitChainExecuteTransactionHash := executeHash
              status := status })

/-- All per-event pipelines joined: the first rejected pipeline rejects
the whole `Promise.all`, so no report is produced; otherwise the
classification results are collected (skipping non-retryable kinds). -/
def processInboxMessageDeliveredEvents (orbitChainId : Nat)
    (bridgeMessageDeliveredLogs : List BridgeMessageDeliveredEventArgs)
    (getReceipt : ReceiptLookup) :
    List InboxMessageDeliveredEvent → Except PairError (List RetryableResult)
  | [] => .ok []
  | ev :: rest =>
    match processInboxMessageDeliveredEvent orbitChainId bridgeMessageDeliveredLogs
        getReceipt ev with
    | .error e => .error e
    | .ok none =>
      processInboxMessageDeliveredEvents orbitChainId bridgeMessageDeliveredLogs
        getReceipt rest
    | .ok (some r) =>
      match processInboxMessageDeliveredEvents orbitChainId bridgeMessageDeliveredLogs
          getReceipt rest with
      | .error e => .error e
      | .ok rs => .ok (r :: rs)

/-! ## Report Aggregator

The script sorts each group with the comparator
`(a, b) => Number(a.submittedAtBlock - b.submittedAtBlock)`;
`Array.prototype.sort` is stable, and for a total preorder every stable
sort computes the same list, embedded here by stable insertion. -/

/-- Insert one result before the first element with a submission block
at least as large; in the `foldr` below the inserted element is the
earlier one in discovery order, so ties keep original order. -/
def insertByBlock (r : RetryableResult) : List RetryableResult → List RetryableResult
  | [] => [r]
  | x :: xs =>
    if r.submittedAtBlock ≤ x.submittedAtBlock then r :: x :: xs
    else x :: insertByBlock r xs

/-- Stable ascending sort by submission block number. -/
def sortBySubmittedAtBlock (rs : List RetryableResult) : List RetryableResult :=
  rs.foldr insertByBlock []

/-- The report of the script: the pending pushes sorted, and the
redeemed pushes sorted. -/
def aggregateReport (results : List RetryableResult) :
    List RetryableResult × List RetryableResult :=
  (sortBySubmittedAtBlock
     (results.filter (fun r => decide (r.status ≠ RetryableStatus.REDEEMED))),
   sortBySubmittedAtBlock
     (results.filter (fun r => decide (r.status = RetryableStatus.REDEEMED))))

/-! ## Helper lemmas: the fuelled recursions unfold as intended -/

theorem beBytesAux_fuel : ∀ n f : Nat, n ≤ f → beBytesAux f n = beBytesOfNat n := by
  intro n
  induction n using Nat.strong_induction_on with
  | _ n ih =>
    intro f hf
    match n, f with
    | 0, 0 => rfl
    | 0, f + 1 => rfl
    | n + 1, f + 1 =>
      show beBytesAux f ((n + 1) / 256) ++ _ = beBytesAux n ((n + 1) / 256) ++ _
      have hlt : (n + 1) / 256 < n + 1 := Nat.div_lt_self (by omega) (by omega)
      rw [ih ((n + 1) / 256) hlt f (by omega), ih ((n + 1) / 256) hlt n (by omega)]

theorem beBytesOfNat_succ (n : Nat) (h : n ≠ 0) :
    beBytesOfNat n = beBytesOfNat (n / 256) ++ [n % 256] := by
  match n, h with
  | n + 1, _ =>
    show beBytesAux n ((n + 1) / 256) ++ _ = _
    have hlt : (n + 1) / 256 < n + 1 := Nat.div_lt_self (by omega) (by omega)
    rw [beBytesAux_fuel ((n + 1) / 256) n (by omega)]

theorem natHexAux_fuel : ∀ n f : Nat, n ≤ f → natHexAux f n = natHexChars n := by
  intro n
  induction n using Nat.strong_induction_on with
  | _ n ih =>
    intro f hf
    match n, f with
    | 0, 0 => rfl
    | 0, f + 1 => rfl
    | n + 1, f + 1 =>
      show (if n + 1 < 16 then _ else _) = natHexAux (n + 1) (n + 1)
      by_cases h16 : n + 1 < 16
      · rw [if_pos h16]
        show _ = if n + 1 < 16 then _ else _
        rw [if_pos h16]
      · rw [if_neg h16]
        show _ = if n + 1 < 16 then _ else _
        rw [if_neg h16]
        have hlt : (n + 1) / 16 < n + 1 := Nat.div_lt_self (by omega) (by omega)
        rw [ih ((n + 1) / 16) hlt f (by omega), ih ((n + 1) / 16) hlt n (by omega)]

theorem natHexChars_small (n : Nat) (h : n < 16) : natHexChars n = [hexDigitChar n] := by
  match n with
  | 0 => rfl
  | n + 1 =>
    show (if n + 1 < 16 then _ else _) = _
    rw [if_pos h]

theorem natHexChars_large (n : Nat) (h : 16 ≤ n) :
    natHexChars n = natHexChars (n / 16) ++ [hexDigitChar (n % 16)] := by
  match n, h with
  | n + 1, _ =>
    show (if n + 1 < 16 then _ else _) = _
    rw [if_neg (by omega)]
    have hlt : (n + 1) / 16 < n + 1 := Nat.div_lt_self (by omega) (by omega)
    rw [natHexAux_fuel ((n + 1) / 16) n (by omega)]

theorem hexDigitChar_ne_zero (d : Nat) (h1 : 1 ≤ d) (h15 : d ≤ 15) :
    hexDigitChar d ≠ '0' := by
  interval_cases d <;> decide

theorem hexCharValue_hexDigitChar (d : Nat) (h : d ≤ 15) :
    hexCharValue (hexDigitChar d) = some d := by
  interval_cases d <;> rfl

theorem natHexChars_ne_nil (n : Nat) : natHexChars n ≠ [] := by
  rcases Nat.lt_or_ge n 16 with h | h
  · rw [natHexChars_small n h]; simp
  · rw [natHexChars_large n h]; simp

theorem natHexChars_head (n : Nat) (h : 1 ≤ n) :
    ∃ c t, natHexChars n = c :: t ∧ c ≠ '0' := by
  induction n using Nat.strong_induction_on with
  | _ n ih =>
    rcases Nat.lt_or_ge n 16 with h16 | h16
    · exact ⟨hexDigitChar n, [], natHexChars_small n h16,
        hexDigitChar_ne_zero n h (by omega)⟩
    · obtain ⟨c, t, hct, hc⟩ := ih (n / 16)
        (Nat.div_lt_self (by omega) (by omega))
        ((Nat.le_div_iff_mul_le (by omega)).2 (by omega))
      exact ⟨c, t ++ [hexDigitChar (n % 16)], by rw [natHexChars_large n h16, hct]; rfl, hc⟩

theorem dropLeadingHexZeros_eq_self (c : Char) (t : List Char) (hc : c ≠ '0') :
    dropLeadingHexZeros (c :: t) = c :: t := by
  match t with
  | [] => rfl
  | c2 :: r =>
    have hb : (c == '0') = false := beq_eq_false_iff_ne.2 hc
    show (if c == '0' then _ else _) = _
    simp [hb]

theorem evenPadHex_single (a : Char) : evenPadHex [a] = ['0', a] := by
  unfold evenPadHex
  simp

theorem evenPadHex_pair (a b : Char) : evenPadHex [a, b] = [a, b] := by
  unfold evenPadHex
  simp

theorem evenPadHex_append_pair (s : List Char) (a b : Char) :
    evenPadHex (s ++ [a, b]) = evenPadHex s ++ [a, b] := by
  unfold evenPadHex
  have : (s ++ [a, b]).length % 2 = s.length % 2 := by
    simp [List.length_append]
  rw [this]
  by_cases h : s.length % 2 = 1
  · simp [h]
  · simp [h]

theorem bytesToHexChars_append (xs ys : List Nat) :
    bytesToHexChars (xs ++ ys) = bytesToHexChars xs ++ bytesToHexChars ys := by
  unfold bytesToHexChars
  rw [List.map_append, List.flatten_append]

theorem length_bytesToHexChars (bs : List Nat) :
    (bytesToHexChars bs).length = 2 * bs.length := by
  induction bs with
  | nil => rfl
  | cons b rest ih =>
    show (bytesToHexChars ([b] ++ rest)).length = _
    rw [bytesToHexChars_append]
    simp only [List.length_append, ih, List.length_cons]
    have : (bytesToHexChars [b]).length = 2 := rfl
    omega

/-- The even-padded minimal hex digits of a positive number are exactly
the hex digits of its minimal big-endian bytes. -/
theorem evenPadHex_natHexChars (n : Nat) (h : 1 ≤ n) :
    evenPadHex (natHexChars n) = bytesToHexChars (beBytesOfNat n) := by
  induction n using Nat.strong_induction_on with
  | _ n ih =>
    have hmoddiv : n % 256 / 16 = n / 16 % 16 := by
      have : (256 : Nat) = 16 * 16 := by norm_num
      rw [this, Nat.mod_mul_right_div_self]
    have hmodmod : n % 256 % 16 = n % 16 :=
      Nat.mod_mod_of_dvd n (by norm_num)
    rcases Nat.lt_or_ge n 256 with h256 | h256
    · have hn256 : n % 256 = n := Nat.mod_eq_of_lt h256
      have hbe : beBytesOfNat n = [n] := by
        rw [beBytesOfNat_succ n (by omega)]
        have h0 : n / 256 = 0 := Nat.div_eq_of_lt h256
        rw [h0, hn256]
        rfl
      rcases Nat.lt_or_ge n 16 with h16 | h16
      · rw [natHexChars_small n h16, hbe]
        show evenPadHex [hexDigitChar n] = [hexDigitChar (n % 256 / 16), hexDigitChar (n % 16)]
        have hd : n / 16 = 0 := Nat.div_eq_of_lt h16
        have hm : n % 16 = n := Nat.mod_eq_of_lt h16
        rw [hmoddiv, hd, hm, evenPadHex_single]
        rfl
      · rw [natHexChars_large n h16, natHexChars_small (n / 16) (by omega), hbe]
        show evenPadHex [hexDigitChar (n / 16), hexDigitChar (n % 16)] =
          [hexDigitChar (n % 256 / 16), hexDigitChar (n % 16)]
        rw [hmoddiv]
        have : n / 16 % 16 = n / 16 := Nat.mod_eq_of_lt (by omega)
        rw [this, evenPadHex_pair]
    · have hmid : 16 ≤ n / 16 := by
        rw [Nat.le_div_iff_mul_le (by omega)]
        omega
      have hsplit : natHexChars n =
          natHexChars (n / 256) ++ [hexDigitChar (n / 16 % 16), hexDigitChar (n % 16)] := by
        rw [natHexChars_large n (by omega), natHexChars_large (n / 16) hmid,
          Nat.div_div_eq_div_mul]
        show natHexChars (n / 256) ++ [_] ++ [_] = _
        rw [List.append_assoc]
        rfl
      have hq : 1 ≤ n / 256 := by
        rw [Nat.le_div_iff_mul_le (by omega)]
        omega
      rw [hsplit, evenPadHex_append_pair,
        ih (n / 256) (Nat.div_lt_self (by omega) (by omega)) hq,
        beBytesOfNat_succ n (by omega), bytesToHexChars_append]
      show _ = _ ++ [hexDigitChar (n % 256 % 256 / 16), hexDigitChar (n % 256 % 16)]
      rw [Nat.mod_mod_of_dvd n (by norm_num : (256 : Nat) ∣ 256)]
      rw [hmoddiv, hmodmod]

theorem beBytesOfNat_mem_lt (n : Nat) : ∀ b ∈ beBytesOfNat n, b < 256 := by
  induction n using Nat.strong_induction_on with
  | _ n ih =>
    intro b hb
    rcases Nat.eq_zero_or_pos n with rfl | hn
    · rw [show beBytesOfNat 0 = ([] : List Nat) from rfl] at hb
      simp at hb
    · rw [beBytesOfNat_succ n (by omega)] at hb
      rcases List.mem_append.1 hb with h | h
      · exact ih (n / 256) (Nat.div_lt_self (by omega) (by omega)) b h
      · simp at h
        omega

theorem hexPairsToBytes_bytesToHexChars (bs : List Nat) (h : ∀ b ∈ bs, b < 256) :
    hexPairsToBytes (bytesToHexChars bs) = bs := by
  induction bs with
  | nil => rfl
  | cons b rest ih =>
    have hb : b < 256 := h b (List.mem_cons_self b rest)
    show hexPairsToBytes
      (hexDigitChar (b % 256 / 16) :: hexDigitChar (b % 16) :: bytesToHexChars rest) = _
    unfold hexPairsToBytes
    rw [hexCharValue_hexDigitChar (b % 256 / 16) (by
          have : b % 256 / 16 < 16 := Nat.div_lt_of_lt_mul (by
            have := Nat.mod_lt b (y := 256) (by omega)
            omega)
          omega),
        hexCharValue_hexDigitChar (b % 16) (by
          have := Nat.mod_lt b (y := 16) (by omega)
          omega)]
    show (16 * (b % 256 / 16) + b % 16) :: hexPairsToBytes (bytesToHexChars rest) = _
    rw [ih (fun x hx => h x (List.mem_cons_of_mem b hx))]
    have hbm : b % 256 = b := Nat.mod_eq_of_lt hb
    have hsplit : 16 * (b / 16) + b % 16 = b := Nat.div_add_mod b 16
    rw [hbm, hsplit]

theorem beValue_append_byte (bs : List Nat) (b : Nat) :
    beValue (bs ++ [b]) = 256 * beValue bs + b := by
  unfold beValue
  rw [List.foldl_append]
  show beValue bs * 256 + b = 256 * beValue bs + b
  omega

theorem beValue_beBytesOfNat (n : Nat) : beValue (beBytesOfNat n) = n := by
  induction n using Nat.strong_induction_on with
  | _ n ih =>
    rcases Nat.eq_zero_or_pos n with rfl | hn
    · rfl
    · rw [beBytesOfNat_succ n (by omega), beValue_append_byte,
        ih (n / 256) (Nat.div_lt_self (by omega) (by omega))]
      omega

theorem beBytesOfNat_head_ne_zero (n : Nat) (h : 1 ≤ n) :
    ∃ b t, beBytesOfNat n = b :: t ∧ b ≠ 0 := by
  induction n using Nat.strong_induction_on with
  | _ n ih =>
    rcases Nat.lt_or_ge n 256 with h256 | h256
    · refine ⟨n, [], ?_, by omega⟩
      rw [beBytesOfNat_succ n (by omega), Nat.div_eq_of_lt h256, Nat.mod_eq_of_lt h256]
      rfl
    · obtain ⟨b, t, hbt, hb⟩ := ih (n / 256)
        (Nat.div_lt_self (by omega) (by omega))
        ((Nat.le_div_iff_mul_le (by omega)).2 (by omega))
      exact ⟨b, t ++ [n % 256], by rw [beBytesOfNat_succ n (by omega), hbt]; rfl, hb⟩

theorem beBytesOfNat_length_le : ∀ k n : Nat, n < 256 ^ k → (beBytesOfNat n).length ≤ k := by
  intro k
  induction k with
  | zero =>
    intro n hn
    interval_cases n
    exact Nat.le_of_eq rfl
  | succ k ih =>
    intro n hn
    rcases Nat.eq_zero_or_pos n with rfl | hpos
    · rw [show beBytesOfNat 0 = ([] : List Nat) from rfl]
      simp
    · rw [beBytesOfNat_succ n (by omega)]
      have hq : n / 256 < 256 ^ k := by
        rw [Nat.div_lt_iff_lt_mul (by omega)]
        calc n < 256 ^ (k + 1) := hn
        _ = 256 ^ k * 256 := by ring
      have := ih (n / 256) hq
      simp only [List.length_append, List.length_cons, List.length_nil]
      omega

theorem hexPairsToBytes_zeros_append (k : Nat) (s : List Char) :
    hexPairsToBytes (List.replicate (2 * k) '0' ++ s) =
      List.replicate k 0 ++ hexPairsToBytes s := by
  induction k with
  | zero => rfl
  | succ k ih =>
    have h2 : 2 * (k + 1) = (2 * k) + 1 + 1 := by omega
    calc hexPairsToBytes (List.replicate (2 * (k + 1)) '0' ++ s)
        = hexPairsToBytes ('0' :: '0' :: (List.replicate (2 * k) '0' ++ s)) := by
          rw [h2, List.replicate_succ, List.replicate_succ, List.cons_append,
            List.cons_append]
      _ = 0 :: hexPairsToBytes (List.replicate (2 * k) '0' ++ s) := rfl
      _ = 0 :: (List.replicate k 0 ++ hexPairsToBytes s) := by rw [ih]
      _ = List.replicate (k + 1) 0 ++ hexPairsToBytes s := by
          rw [List.replicate_succ]
          rfl

theorem beValue_replicate_zero_append (k : Nat) (bs : List Nat) :
    beValue (List.replicate k 0 ++ bs) = beValue bs := by
  induction k with
  | zero => rfl
  | succ k ih =>
    rw [List.replicate_succ]
    show beValue (0 :: (List.replicate k 0 ++ bs)) = _
    unfold beValue
    show (List.replicate k 0 ++ bs).foldl _ (0 * 256 + 0) = _
    rw [show (0 : Nat) * 256 + 0 = 0 by omega]
    exact ih

theorem formatNumber_drop_two (v : Nat) :
    (formatNumber v).drop 2 = evenPadHex (dropLeadingHexZeros (natHexChars v)) := rfl

theorem mem_evenPadHex (c : Char) (s : List Char) (h : c ∈ s) : c ∈ evenPadHex s := by
  unfold evenPadHex
  by_cases hl : s.length % 2 = 1
  · have hb : (s.length % 2 == 1) = true := by simp [hl]
    simp only [hb, if_true]
    exact List.mem_cons_of_mem _ h
  · have hb : (s.length % 2 == 1) = false := by simp [hl]
    simp only [hb, Bool.false_eq_true, if_false]
    exact h

theorem jsNumberEqZero_eq_false_of_mem (s : List Char) (c : Char)
    (hmem : c ∈ s.drop 2) (hc : c ≠ '0') : jsNumberEqZero s = false := by
  unfold jsNumberEqZero
  have hall : (s.drop 2).all (fun x => x == '0') = false := by
    cases hb : (s.drop 2).all (fun x => x == '0') with
    | false => rfl
    | true => exact absurd (by simpa using List.all_eq_true.1 hb c hmem) hc
  rw [hall, Bool.and_false]

theorem formatNumber_drop_two_pos (v : Nat) (h : 1 ≤ v) :
    (formatNumber v).drop 2 = bytesToHexChars (beBytesOfNat v) := by
  obtain ⟨c, t, hct, hc⟩ := natHexChars_head v h
  rw [formatNumber_drop_two]
  rw [show dropLeadingHexZeros (natHexChars v) = natHexChars v from by
    rw [hct]; exact dropLeadingHexZeros_eq_self c t hc]
  exact evenPadHex_natHexChars v h

theorem formatNumber_has_nonzero_char (v : Nat) (h : 1 ≤ v) :
    ∃ c ∈ (formatNumber v).drop 2, c ≠ '0' := by
  obtain ⟨c, t, hct, hc⟩ := natHexChars_head v h
  refine ⟨c, ?_, hc⟩
  rw [formatNumber_drop_two]
  rw [show dropLeadingHexZeros (natHexChars v) = natHexChars v from by
    rw [hct]; exact dropLeadingHexZeros_eq_self c t hc]
  exact mem_evenPadHex c _ (by rw [hct]; exact List.mem_cons_self c t)

/-- On every positive value the script encoding
`Number(field) == 0 ? empty : Buffer.from(hex)` of `formatNumber` yields
exactly the minimal big-endian bytes, and on 0 the empty byte string. -/
theorem toByteArrayField_formatNumber (v : Nat) :
    toByteArrayField (formatNumber v) = beBytesOfNat v := by
  rcases Nat.eq_zero_or_pos v with rfl | hv
  · rfl
  · obtain ⟨c, hcmem, hc⟩ := formatNumber_has_nonzero_char v hv
    have hz := jsNumberEqZero_eq_false_of_mem _ c hcmem hc
    unfold toByteArrayField
    rw [if_neg (by simp [hz])]
    rw [formatNumber_drop_two_pos v hv]
    exact hexPairsToBytes_bytesToHexChars _ (beBytesOfNat_mem_lt v)

theorem padHexTo_drop_two (size : Nat) (hex : List Char) :
    (padHexTo size hex).drop 2 =
      List.replicate (2 * size - (hex.drop 2).length) '0' ++ hex.drop 2 := rfl

/-- On a positive sequence number below `2 ^ 256` the padded field
encodes as the 32-byte big-endian representation. -/
theorem toByteArrayField_pad32 (v : Nat) (h1 : 1 ≤ v) (h2 : v < 2 ^ 256) :
    toByteArrayField (padHexTo 32 (formatNumber v)) =
      List.replicate (32 - (beBytesOfNat v).length) 0 ++ beBytesOfNat v := by
  have hlen : (beBytesOfNat v).length ≤ 32 := by
    refine beBytesOfNat_length_le 32 v ?_
    calc v < 2 ^ 256 := h2
    _ = 256 ^ 32 := by norm_num
  have hdrop : (padHexTo 32 (formatNumber v)).drop 2 =
      List.replicate (2 * (32 - (beBytesOfNat v).length)) '0' ++
        bytesToHexChars (beBytesOfNat v) := by
    rw [padHexTo_drop_two, formatNumber_drop_two_pos v h1, length_bytesToHexChars]
    congr 2
    omega
  obtain ⟨c, hcmem, hc⟩ := formatNumber_has_nonzero_char v h1
  have hcmem2 : c ∈ (padHexTo 32 (formatNumber v)).drop 2 := by
    rw [padHexTo_drop_two]
    exact List.mem_append_right _ hcmem
  have hz := jsNumberEqZero_eq_false_of_mem _ c hcmem2 hc
  unfold toByteArrayField
  rw [if_neg (by simp [hz]), hdrop, hexPairsToBytes_zeros_append]
  rw [hexPairsToBytes_bytesToHexChars _ (beBytesOfNat_mem_lt v)]

theorem mem_bytesToHexChars_high (a : List Nat) (b : Nat) (hb : b ∈ a) :
    hexDigitChar (b % 256 / 16) ∈ bytesToHexChars a := by
  unfold bytesToHexChars
  rw [List.mem_flatten]
  exact ⟨_, List.mem_map_of_mem _ hb, by simp⟩

theorem mem_bytesToHexChars_low (a : List Nat) (b : Nat) (hb : b ∈ a) :
    hexDigitChar (b % 16) ∈ bytesToHexChars a := by
  unfold bytesToHexChars
  rw [List.mem_flatten]
  exact ⟨_, List.mem_map_of_mem _ hb, by simp⟩

/-- A raw-bytes field (address or call data) with any non-zero byte
passes through the encoding unchanged. -/
theorem toByteArrayField_addressHex (a : List Nat) (hlt : ∀ b ∈ a, b < 256)
    (hnz : ∃ b ∈ a, b ≠ 0) : toByteArrayField (addressHex a) = a := by
  obtain ⟨b, hba, hb0⟩ := hnz
  have hblt := hlt b hba
  have hzero : jsNumberEqZero (addressHex a) = false := by
    rcases Nat.eq_zero_or_pos (b % 16) with hm | hm
    · have hbm : b % 256 = b := Nat.mod_eq_of_lt hblt
      refine jsNumberEqZero_eq_false_of_mem _ (hexDigitChar (b % 256 / 16))
        (mem_bytesToHexChars_high a b hba) (hexDigitChar_ne_zero _ ?_ ?_)
      · rw [hbm]; omega
      · rw [hbm]; omega
    · exact jsNumberEqZero_eq_false_of_mem _ (hexDigitChar (b % 16))
        (mem_bytesToHexChars_low a b hba) (hexDigitChar_ne_zero _ hm (by omega))
  unfold toByteArrayField
  rw [if_neg (by simp [hzero])]
  exact hexPairsToBytes_bytesToHexChars a hlt

/-! ## Sample inputs used by concrete theorems -/

/-- A 20-byte address with non-zero bytes. -/
def sampleAddressA : List Nat :=
  [1, 2, 3, 4, 5, 6, 7, 8, 9, 10, 11, 12, 13, 14, 15, 16, 17, 18, 19, 20]

/-- A concrete well-formed deriver input. -/
def sampleRecordA : RetryableInformation :=
  { orbitChainId := 412346
    fromAddress := sampleAddressA
    messageNumber := 7
    baseFee := 0
    destAddress := sampleAddressA
    orbitChainCallValue := 1
    callValue := 256
    maxSubmissionFee := 0
    excessFeeRefundAddress := sampleAddressA
    callValueRefundAddress := sampleAddressA
    gasLimit := 21000
    maxFeePerGas := 60000000
    data := ['0', 'x'] }

/-- The same input with sequence number 0. -/
def sampleRecordZeroSeq : RetryableInformation :=
  { sampleRecordA with messageNumber := 0 }

/-- The same input with the all-zero call-value refund address. -/
def sampleRecordZeroRefund : RetryableInformation :=
  { sampleRecordA with callValueRefundAddress := List.replicate 20 0 }

/-! ## Claims C1 to C4: the Hash Deriver -/

/-- C1: the claim says the sequence-number field always contributes
exactly 32 bytes, including at sequence number 0.  The code pads the
field to 32 bytes but then the blanket `Number(field) == 0` test of the
`byteArrayFields` map turns the all-zero padded string into the empty
byte string, so at sequence number 0 the second list element is empty;
for every positive sequence number below `2 ^ 256` the element is
indeed the fixed-width 32-byte big-endian representation. -/
theorem claim_c1_sequence_number_field (r : RetryableInformation) :
    (r.messageNumber = 0 → (byteArrayFields r).get? 1 = some []) ∧
    (1 ≤ r.messageNumber → r.messageNumber < 2 ^ 256 →
      ∃ bs, (byteArrayFields r).get? 1 = some bs ∧ bs.length = 32 ∧
        beValue bs = r.messageNumber) := by
  constructor
  · intro h0
    have h : toByteArrayField (padHexTo 32 (formatNumber r.messageNumber)) = [] := by
      rw [h0]
      rfl
    exact congrArg some h
  · intro h1 h2
    refine ⟨_, congrArg some (toByteArrayField_pad32 r.messageNumber h1 h2), ?_, ?_⟩
    · have hle : (beBytesOfNat r.messageNumber).length ≤ 32 := by
        refine beBytesOfNat_length_le 32 r.messageNumber ?_
        calc r.messageNumber < 2 ^ 256 := h2
        _ = 256 ^ 32 := by norm_num
      simp only [List.length_append, List.length_replicate]
      omega
    · rw [beValue_replicate_zero_append, beValue_beBytesOfNat]

/-- Witness for C1 at concrete inputs: sequence number 0 contributes the
empty byte string, sequence number 7 contributes 32 bytes of value 7. -/
theorem claim_c1_witness :
    (byteArrayFields sampleRecordZeroSeq).get? 1 = some [] ∧
    ∃ bs, (byteArrayFields sampleRecordA).get? 1 = some bs ∧ bs.length = 32 ∧
      beValue bs = sampleRecordA.messageNumber := by
  exact ⟨(claim_c1_sequence_number_field sampleRecordZeroSeq).1 rfl,
    (claim_c1_sequence_number_field sampleRecordA).2 (by decide) (by decide)⟩

/-- C2: every numeric field other than the sequence number is encoded as
its minimal big-endian byte string: the list elements at the numeric
positions are `beBytesOfNat` of the corresponding values, and
`beBytesOfNat` sends 0 to the empty byte string, 1 to the single byte
0x01, round-trips through `beValue`, and has no leading zero byte. -/
theorem claim_c2_numeric_fields_minimal_be (r : RetryableInformation) :
    (byteArrayFields r).get? 0 = some (beBytesOfNat r.orbitChainId) ∧
    (byteArrayFields r).get? 3 = some (beBytesOfNat r.baseFee) ∧
    (byteArrayFields r).get? 4 = some (beBytesOfNat r.callValue) ∧
    (byteArrayFields r).get? 5 = some (beBytesOfNat r.maxFeePerGas) ∧
    (byteArrayFields r).get? 6 = some (beBytesOfNat r.gasLimit) ∧
    (byteArrayFields r).get? 8 = some (beBytesOfNat r.orbitChainCallValue) ∧
    (byteArrayFields r).get? 10 = some (beBytesOfNat r.maxSubmissionFee) ∧
    beBytesOfNat 0 = [] ∧
    beBytesOfNat 1 = [0x01] ∧
    (∀ v : Nat, beValue (beBytesOfNat v) = v) ∧
    (∀ v : Nat, v ≠ 0 → ∃ b t, beBytesOfNat v = b :: t ∧ b ≠ 0) :=
  ⟨congrArg some (toByteArrayField_formatNumber r.orbitChainId),
   congrArg some (toByteArrayField_formatNumber r.baseFee),
   congrArg some (toByteArrayField_formatNumber r.callValue),
   congrArg some (toByteArrayField_formatNumber r.maxFeePerGas),
   congrArg some (toByteArrayField_formatNumber r.gasLimit),
   congrArg some (toByteArrayField_formatNumber r.orbitChainCallValue),
   congrArg some (toByteArrayField_formatNumber r.maxSubmissionFee),
   rfl, rfl, beValue_beBytesOfNat,
   fun v hv => beBytesOfNat_head_ne_zero v (by omega)⟩

/-- Witness for C2 at concrete inputs. -/
theorem claim_c2_witness :
    (byteArrayFields sampleRecordA).get? 3 = some (beBytesOfNat 0) ∧
    beBytesOfNat 0 = [] ∧ beBytesOfNat 1 = [0x01] ∧
    beValue (beBytesOfNat 77) = 77 ∧
    ∃ b t, beBytesOfNat 9 = b :: t ∧ b ≠ 0 := by
  obtain ⟨h0, h3, _, _, _, _, _, hz, ho, hval, hhead⟩ :=
    claim_c2_numeric_fields_minimal_be sampleRecordA
  exact ⟨h3, hz, ho, hval 77, hhead 9 (by decide)⟩

/-- C3: the claim says address fields and call data pass through as raw
bytes, including the all-zero address.  The blanket `Number(field) == 0`
test collapses the all-zero address to the empty byte string, refuting
the claim; every address with a non-zero byte, every call data with a
non-zero byte, and the empty call data do pass through unchanged. -/
theorem claim_c3_address_and_data_raw_bytes :
    (byteArrayFields sampleRecordZeroRefund).get? 9 = some [] ∧
    (∀ r : RetryableInformation, (∀ b ∈ r.callValueRefundAddress, b < 256) →
      (∃ b ∈ r.callValueRefundAddress, b ≠ 0) →
      (byteArrayFields r).get? 9 = some r.callValueRefundAddress) ∧
    (∀ r : RetryableInformation, ∀ bs : List Nat, r.data = addressHex bs →
      (∀ b ∈ bs, b < 256) → (∃ b ∈ bs, b ≠ 0) →
      (byteArrayFields r).get? 12 = some bs) ∧
    (∀ r : RetryableInformation, r.data = ['0', 'x'] →
      (byteArrayFields r).get? 12 = some []) := by
  refine ⟨rfl, ?_, ?_, ?_⟩
  · intro r hlt hnz
    exact congrArg some (toByteArrayField_addressHex r.callValueRefundAddress hlt hnz)
  · intro r bs hdata hlt hnz
    show some (toByteArrayField r.data) = some bs
    rw [hdata]
    exact congrArg some (toByteArrayField_addressHex bs hlt hnz)
  · intro r hdata
    show some (toByteArrayField r.data) = some []
    rw [hdata]
    rfl

/-- Witness for C3 at concrete inputs: a non-zero refund address passes
through as its 20 raw bytes, and empty call data stays empty. -/
theorem claim_c3_witness :
    (byteArrayFields sampleRecordA).get? 9 = some sampleAddressA ∧
    (byteArrayFields sampleRecordA).get? 12 = some [] := by
  exact ⟨(claim_c3_address_and_data_raw_bytes).2.1 sampleRecordA (by decide)
      ⟨1, by decide, by decide⟩,
    (claim_c3_address_and_data_raw_bytes).2.2.2 sampleRecordA rfl⟩

/-- C4: for every deriver input the output is Keccak-256 of the tag byte
0x69 followed by the RLP encoding of exactly these 13 byte strings, in
the claimed order: child-chain id, sequence number, sender, base fee,
call value, max fee per gas, gas limit, destination, child call value,
call-value refund address, max submission fee, excess-fee refund
address, call data. -/
theorem claim_c4_hash_structure (r : RetryableInformation) :
    calculateCreateRetryableTransactionHash r =
      keccak256 (0x69 :: toRlp
        [toByteArrayField (formatNumber r.orbitChainId),
         toByteArrayField (padHexTo 32 (formatNumber r.messageNumber)),
         toByteArrayField (addressHex r.fromAddress),
         toByteArrayField (formatNumber r.baseFee),
         toByteArrayField (formatNumber r.callValue),
         toByteArrayField (formatNumber r.maxFeePerGas),
         toByteArrayField (formatNumber r.gasLimit),
         toByteArrayField (addressHex r.destAddress),
         toByteArrayField (formatNumber r.orbitChainCallValue),
         toByteArrayField (addressHex r.callValueRefundAddress),
         toByteArrayField (formatNumber r.maxSubmissionFee),
         toByteArrayField (addressHex r.excessFeeRefundAddress),
         toByteArrayField r.data]) ∧
    (byteArrayFields r).length = 13 :=
  ⟨rfl, rfl⟩

/-! ## Claim C8: the Message Codec failure conditions -/

/-- A payload of exactly the nine fixed 32-byte fields, whose last slot
declares a call-data length of 5 although no trailing bytes follow. -/
def sampleShortTrailingPayload : List Nat :=
  List.replicate 287 0 ++ [5]

/-- The record the script builds for that payload: no failure; the call
data is cut from the tail of the payload itself. -/
def sampleShortTrailingParsed : MessageData :=
  { destAddress := List.replicate 20 0
    orbitChainCallValue := 0
    callValue := 0
    maxSubmissionFee := 0
    excessFeeRefundAddress := List.replicate 20 0
    callValueRefundAddress := List.replicate 20 0
    gasLimit := 0
    maxFeePerGas := 0
    callDataLength := 5
    data := ['0', 'x', '0', '0', '0', '0', '0', '0', '0', '0', '0', '5'] }

/-- Counterexample to C8: a payload whose trailing bytes (zero of them)
are fewer than its declared call-data length (5) does not fail; the
decode succeeds and silently takes the last five bytes of the payload
itself as call data. -/
theorem claim_c8_counterexample :
    parseMessageData sampleShortTrailingPayload = .ok sampleShortTrailingParsed ∧
    sampleShortTrailingPayload.length = 9 * 32 ∧
    sampleShortTrailingParsed.callDataLength = 5 := by
  refine ⟨by rfl, by decide, rfl⟩

/-- C8 amended: decode fails (with the data-too-small error) exactly for
payloads shorter than the nine fixed 32-byte fields; a payload of at
least nine fields whose three address slots fit in 20 bytes always
decodes successfully, whatever call-data length it declares — the call
data is cut out of the tail of the full payload hex string with a
clamped substring, with no length validation. -/
theorem claim_c8_amended_parse_failure (raw : List Nat) :
    (raw.length < 9 * 32 → parseMessageData raw = .error .dataSizeTooSmall) ∧
    (9 * 32 ≤ raw.length → slotValue raw 0 < 2 ^ 160 → slotValue raw 4 < 2 ^ 160 →
      slotValue raw 5 < 2 ^ 160 →
      ∃ md, parseMessageData raw = .ok md ∧
        md.callDataLength = slotValue raw 8 ∧
        md.data = jsRawDataString raw (slotValue raw 8)) := by
  constructor
  · intro h
    unfold parseMessageData
    rw [if_pos h]
  · intro hlen h0 h4 h5
    unfold parseMessageData
    rw [if_neg (by omega)]
    unfold padAddress
    rw [if_pos h0, if_pos h4, if_pos h5]
    exact ⟨_, rfl, rfl, rfl⟩

/-- Witness for the amended C8 at concrete inputs. -/
theorem claim_c8_witness :
    parseMessageData [] = .error .dataSizeTooSmall ∧
    ∃ md, parseMessageData sampleShortTrailingPayload = .ok md ∧
      md.callDataLength = slotValue sampleShortTrailingPayload 8 ∧
      md.data = jsRawDataString sampleShortTrailingPayload
        (slotValue sampleShortTrailingPayload 8) := by
  exact ⟨(claim_c8_amended_parse_failure []).1 (by decide),
    (claim_c8_amended_parse_failure sampleShortTrailingPayload).2
      (by decide) (by decide) (by decide) (by decide)⟩

/-! ## Claim C9: the Report Aggregator -/

theorem insertByBlock_perm (r : RetryableResult) (l : List RetryableResult) :
    List.Perm (insertByBlock r l) (r :: l) := by
  induction l with
  | nil => exact List.Perm.refl _
  | cons x xs ih =>
    unfold insertByBlock
    by_cases h : r.submittedAtBlock ≤ x.submittedAtBlock
    · rw [if_pos h]
    · rw [if_neg h]
      exact (ih.cons x).trans (List.Perm.swap r x xs)

theorem sortBySubmittedAtBlock_perm (l : List RetryableResult) :
    List.Perm (sortBySubmittedAtBlock l) l := by
  induction l with
  | nil => exact List.Perm.refl _
  | cons x xs ih =>
    exact (insertByBlock_perm x (sortBySubmittedAtBlock xs)).trans (ih.cons x)

theorem insertByBlock_pairwise (r : RetryableResult) (l : List RetryableResult)
    (h : l.Pairwise (fun a b => a.submittedAtBlock ≤ b.submittedAtBlock)) :
    (insertByBlock r l).Pairwise (fun a b => a.submittedAtBlock ≤ b.submittedAtBlock) := by
  induction l with
  | nil => simp [insertByBlock]
  | cons x xs ih =>
    rcases List.pairwise_cons.1 h with ⟨hx, hxs⟩
    unfold insertByBlock
    by_cases hle : r.submittedAtBlock ≤ x.submittedAtBlock
    · rw [if_pos hle]
      refine List.pairwise_cons.2 ⟨?_, h⟩
      intro y hy
      rcases List.mem_cons.1 hy with rfl | hmem
      · exact hle
      · exact Nat.le_trans hle (hx y hmem)
    · rw [if_neg hle]
      refine List.pairwise_cons.2 ⟨?_, ih hxs⟩
      intro y hy
      rcases List.mem_cons.1 ((insertByBlock_perm r xs).mem_iff.1 hy) with rfl | hmem
      · omega
      · exact hx y hmem

theorem sortBySubmittedAtBlock_pairwise (l : List RetryableResult) :
    (sortBySubmittedAtBlock l).Pairwise
      (fun a b => a.submittedAtBlock ≤ b.submittedAtBlock) := by
  induction l with
  | nil => simp [sortBySubmittedAtBlock]
  | cons x xs ih => exact insertByBlock_pairwise x (sortBySubmittedAtBlock xs) ih

theorem insertByBlock_filter (r : RetryableResult) (l : List RetryableResult) (b : Nat) :
    (insertByBlock r l).filter (fun x => x.submittedAtBlock == b) =
      if r.submittedAtBlock = b
      then r :: l.filter (fun x => x.submittedAtBlock == b)
      else l.filter (fun x => x.submittedAtBlock == b) := by
  induction l with
  | nil =>
    by_cases hb : r.submittedAtBlock = b
    · have hbeq : (r.submittedAtBlock == b) = true := by simp [hb]
      rw [if_pos hb]
      show [r].filter _ = _
      simp [List.filter_cons, hbeq]
    · have hbeq : (r.submittedAtBlock == b) = false := beq_eq_false_iff_ne.2 hb
      rw [if_neg hb]
      show [r].filter _ = _
      simp [List.filter_cons, hbeq]
  | cons x xs ih =>
    unfold insertByBlock
    by_cases hle : r.submittedAtBlock ≤ x.submittedAtBlock
    · rw [if_pos hle]
      by_cases hb : r.submittedAtBlock = b
      · have hbeq : (r.submittedAtBlock == b) = true := by simp [hb]
        rw [if_pos hb]
        simp [List.filter_cons, hbeq]
      · have hbeq : (r.submittedAtBlock == b) = false := beq_eq_false_iff_ne.2 hb
        rw [if_neg hb]
        simp [List.filter_cons, hbeq]
    · rw [if_neg hle]
      by_cases hb : r.submittedAtBlock = b
      · have hxb : (x.submittedAtBlock == b) = false := by
          refine beq_eq_false_iff_ne.2 ?_
          omega
        rw [if_pos hb]
        simp only [List.filter_cons, hxb, Bool.false_eq_true, if_false, ih, if_pos hb]
      · rw [if_neg hb]
        simp only [List.filter_cons, ih, if_neg hb]

theorem sortBySubmittedAtBlock_filter (l : List RetryableResult) (b : Nat) :
    (sortBySubmittedAtBlock l).filter (fun x => x.submittedAtBlock == b) =
      l.filter (fun x => x.submittedAtBlock == b) := by
  induction l with
  | nil => rfl
  | cons x xs ih =>
    show (insertByBlock x (sortBySubmittedAtBlock xs)).filter _ = _
    rw [insertByBlock_filter]
    by_cases hb : x.submittedAtBlock = b
    · have hbeq : (x.submittedAtBlock == b) = true := by simp [hb]
      rw [if_pos hb, ih]
      simp [List.filter_cons, hbeq]
    · have hbeq : (x.submittedAtBlock == b) = false := beq_eq_false_iff_ne.2 hb
      rw [if_neg hb, ih]
      simp [List.filter_cons, hbeq]

/-- The six concrete classification results of the claim: submission
blocks 500, 100, 300 in each partition, in discovery order. -/
def sampleResult (bk tag : Nat) (st : RetryableStatus) : RetryableResult :=
  { parentChainTransactionHash := [tag]
    submittedAtBlock := bk
    orbitChainCreateTransactionHash := [tag]
    orbitChainExecuteTransactionHash := none
    status := st }

/-- C9: the aggregator puts exactly the non-REDEEMED results in the
pending group and exactly the REDEEMED results in the redeemed group
(as permutations of the respective filters of the input), each group is
sorted ascending by submission block, ties keep discovery order (the
per-block fibres equal those of the unsorted filters), and on blocks
[500, 100, 300] in each partition the output order is [100, 300, 500]. -/
theorem claim_c9_report_aggregator (results : List RetryableResult) :
    List.Perm (aggregateReport results).1
      (results.filter (fun r => decide (r.status ≠ RetryableStatus.REDEEMED))) ∧
    List.Perm (aggregateReport results).2
      (results.filter (fun r => decide (r.status = RetryableStatus.REDEEMED))) ∧
    (aggregateReport results).1.Pairwise
      (fun a b => a.submittedAtBlock ≤ b.submittedAtBlock) ∧
    (aggregateReport results).2.Pairwise
      (fun a b => a.submittedAtBlock ≤ b.submittedAtBlock) ∧
    (∀ b : Nat,
      (aggregateReport results).1.filter (fun x => x.submittedAtBlock == b) =
        (results.filter (fun r => decide (r.status ≠ RetryableStatus.REDEEMED))).filter
          (fun x => x.submittedAtBlock == b) ∧
      (aggregateReport results).2.filter (fun x => x.submittedAtBlock == b) =
        (results.filter (fun r => decide (r.status = RetryableStatus.REDEEMED))).filter
          (fun x => x.submittedAtBlock == b)) ∧
    aggregateReport
        [sampleResult 500 1 RetryableStatus.NOT_CREATED,
         sampleResult 500 2 RetryableStatus.REDEEMED,
         sampleResult 100 3 RetryableStatus.NOT_CREATED,
         sampleResult 100 4 RetryableStatus.REDEEMED,
         sampleResult 300 5 RetryableStatus.NOT_CREATED,
         sampleResult 300 6 RetryableStatus.REDEEMED] =
      ([sampleResult 100 3 RetryableStatus.NOT_CREATED,
        sampleResult 300 5 RetryableStatus.NOT_CREATED,
        sampleResult 500 1 RetryableStatus.NOT_CREATED],
       [sampleResult 100 4 RetryableStatus.REDEEMED,
        sampleResult 300 6 RetryableStatus.REDEEMED,
        sampleResult 500 2 RetryableStatus.REDEEMED]) := by
  refine ⟨sortBySubmittedAtBlock_perm _, sortBySubmittedAtBlock_perm _,
    sortBySubmittedAtBlock_pairwise _, sortBySubmittedAtBlock_pairwise _,
    fun b => ⟨sortBySubmittedAtBlock_filter _ b, sortBySubmittedAtBlock_filter _ b⟩,
    by decide⟩

/-! ## Claim C6: the Event Correlator on zero or multiple matches -/

/-- A retryable-submission bridge event with sequence number 1. -/
def sampleBridgeArgsA : BridgeMessageDeliveredEventArgs :=
  { messageIndex := 1
    beforeInboxAcc := List.replicate 32 0
    inbox := List.replicate 20 3
    kind := 9
    sender := sampleAddressA
    messageDataHash := List.replicate 32 0
    baseFeeL1 := 100
    timestamp := 1700000000 }

/-- A second bridge event with the same sequence number 1 but a
different base fee: a duplicate match. -/
def sampleBridgeArgsB : BridgeMessageDeliveredEventArgs :=
  { sampleBridgeArgsA with baseFeeL1 := 999 }

/-- An inbox event with sequence number 1 and a payload of nine zero
slots. -/
def sampleInboxEventA : InboxMessageDeliveredEvent :=
  { messageNum := 1
    data := List.replicate 288 0
    transactionHash := [0xAB]
    blockNumber := 10 }

/-- The same inbox event with sequence number 5, matched by no bridge
event below. -/
def sampleInboxEventNoMatch : InboxMessageDeliveredEvent :=
  { sampleInboxEventA with messageNum := 5 }

/-- Counterexample to C6: with two accounting events carrying the same
sequence number the correlator silently picks the first one and the
pipeline completes without error (here: NOT_CREATED), instead of
surfacing a fatal error. -/
theorem claim_c6_counterexample :
    correlateBridgeEvent [sampleBridgeArgsA, sampleBridgeArgsB] 1 =
      some sampleBridgeArgsA ∧
    sampleBridgeArgsA ≠ sampleBridgeArgsB ∧
    Except.map (Option.map RetryableResult.status)
      (processInboxMessageDeliveredEvent 412346 [sampleBridgeArgsA, sampleBridgeArgsB]
        (pureLookup (fun _ => none)) sampleInboxEventA) =
      .ok (some RetryableStatus.NOT_CREATED) := by
  refine ⟨rfl, by decide, rfl⟩

/-- C6 amended: the correlator throws (a fatal per-event error) exactly
when no accounting event matches the sequence number; when one or more
match, it silently returns the first match in stream order. -/
theorem claim_c6_amended_correlator
    (bridgeLogs : List BridgeMessageDeliveredEventArgs) (n : Nat) :
    (correlateBridgeEvent bridgeLogs n = none ↔
      ∀ ev ∈ bridgeLogs, ev.messageIndex ≠ n) ∧
    (∀ e rest, bridgeLogs.filter (fun ev => ev.messageIndex == n) = e :: rest →
      correlateBridgeEvent bridgeLogs n = some e) ∧
    (∀ (orbitChainId : Nat) (getReceipt : ReceiptLookup)
        (ev : InboxMessageDeliveredEvent), ev.messageNum = n →
      correlateBridgeEvent bridgeLogs n = none →
      processInboxMessageDeliveredEvent orbitChainId bridgeLogs getReceipt ev =
        .error .noMatchingBridgeEvent) := by
  refine ⟨?_, ?_, ?_⟩
  · unfold correlateBridgeEvent
    rw [List.head?_eq_none_iff, List.filter_eq_nil_iff]
    simp
  · intro e rest hfil
    unfold correlateBridgeEvent
    rw [hfil]
    rfl
  · intro orbitChainId getReceipt ev hnum hnone
    unfold processInboxMessageDeliveredEvent
    rw [hnum, hnone]

/-- Witness for the amended C6 at concrete inputs: sequence number 5 has
no match, so the per-event pipeline fails. -/
theorem claim_c6_witness :
    correlateBridgeEvent [sampleBridgeArgsA] 5 = none ∧
    processInboxMessageDeliveredEvent 412346 [sampleBridgeArgsA]
      (pureLookup (fun _ => none)) sampleInboxEventNoMatch =
      .error .noMatchingBridgeEvent := by
  have h := claim_c6_amended_correlator [sampleBridgeArgsA] 5
  have h1 : correlateBridgeEvent [sampleBridgeArgsA] 5 = none := h.1.mpr (by decide)
  exact ⟨h1, h.2.2 412346 (pureLookup (fun _ => none)) sampleInboxEventNoMatch rfl h1⟩

/-! ## Claim C7: per-pair error isolation -/

/-- A retryable-submission bridge event with sequence number 2. -/
def sampleBridgeArgsC : BridgeMessageDeliveredEventArgs :=
  { sampleBridgeArgsA with messageIndex := 2 }

/-- An inbox event whose payload is empty: `parseMessageData` throws on
it. -/
def sampleInboxEventBad : InboxMessageDeliveredEvent :=
  { messageNum := 1
    data := []
    transactionHash := [0x01]
    blockNumber := 5 }

/-- A healthy inbox event with a well-formed nine-slot payload. -/
def sampleInboxEventGood : InboxMessageDeliveredEvent :=
  { messageNum := 2
    data := List.replicate 288 0
    transactionHash := [0x02]
    blockNumber := 6 }

/-- The execute-transaction hash carried by the sample RedeemScheduled
log. -/
def sampleRetryTxHash : List Nat := List.replicate 32 7

/-- A well-formed RedeemScheduled log: the signature topic plus one
topic per indexed argument (ticket id, retry hash, sequence number),
and 128 data bytes for the four non-indexed words. -/
def sampleRedeemLog : ReceiptLog :=
  { topics := [RedeemScheduledEventTopic, List.replicate 32 1, sampleRetryTxHash,
      List.replicate 32 4]
    data := List.replicate 128 0 }

/-- A successful receipt carrying the sample RedeemScheduled log. -/
def sampleGoodReceipt : TransactionReceipt :=
  { status := true
    logs := [sampleRedeemLog] }

/-- Counterexample to C7: in a batch with one malformed pair and one
healthy pair, the run fails with the malformed pair and produces no
report at all, although the healthy pair alone classifies to REDEEMED
with the same collaborator. -/
theorem claim_c7_counterexample :
    processInboxMessageDeliveredEvents 412346 [sampleBridgeArgsA, sampleBridgeArgsC]
        (pureLookup (fun _ => some sampleGoodReceipt))
        [sampleInboxEventBad, sampleInboxEventGood] =
      .error (.malformedPayload .dataSizeTooSmall) ∧
    Except.map (List.map RetryableResult.status)
      (processInboxMessageDeliveredEvents 412346 [sampleBridgeArgsA, sampleBridgeArgsC]
        (pureLookup (fun _ => some sampleGoodReceipt)) [sampleInboxEventGood]) =
      .ok [RetryableStatus.REDEEMED] := by
  exact ⟨rfl, rfl⟩

/-- C7 amended: an error in any per-event pipeline makes the whole
`Promise.all` reject, so a report exists exactly when every event in the
batch classifies (or is skipped) without error; one failing pair
prevents every sibling from appearing in any report. -/
theorem claim_c7_amended_batch (orbitChainId : Nat)
    (bridgeLogs : List BridgeMessageDeliveredEventArgs) (getReceipt : ReceiptLookup)
    (events : List InboxMessageDeliveredEvent) :
    (∃ rs, processInboxMessageDeliveredEvents orbitChainId bridgeLogs getReceipt events =
        .ok rs) ↔
    (∀ ev ∈ events, ∃ o,
      processInboxMessageDeliveredEvent orbitChainId bridgeLogs getReceipt ev = .ok o) := by
  have hcons : ∀ (ev : InboxMessageDeliveredEvent)
      (rest : List InboxMessageDeliveredEvent),
      processInboxMessageDeliveredEvents orbitChainId bridgeLogs getReceipt (ev :: rest) =
        match processInboxMessageDeliveredEvent orbitChainId bridgeLogs getReceipt ev with
        | .error e => .error e
        | .ok none => processInboxMessageDeliveredEvents orbitChainId bridgeLogs
            getReceipt rest
        | .ok (some r) =>
          match processInboxMessageDeliveredEvents orbitChainId bridgeLogs
              getReceipt rest with
          | .error e => .error e
          | .ok rs => .ok (r :: rs) := fun _ _ => rfl
  induction events with
  | nil =>
    constructor
    · intro _ ev hev
      exact absurd hev (List.not_mem_nil ev)
    · intro _
      exact ⟨[], rfl⟩
  | cons ev rest ih =>
    constructor
    · rintro ⟨rs, hrs⟩ e he
      rw [hcons] at hrs
      cases hpe : processInboxMessageDeliveredEvent orbitChainId bridgeLogs getReceipt ev with
      | error e' =>
        rw [hpe] at hrs
        exact Except.noConfusion hrs
      | ok o =>
        rcases List.mem_cons.1 he with rfl | hmem
        · exact ⟨o, hpe⟩
        · refine ih.1 ?_ e hmem
          cases o with
          | none =>
            rw [hpe] at hrs
            exact ⟨rs, hrs⟩
          | some r =>
            rw [hpe] at hrs
            cases hrest : processInboxMessageDeliveredEvents orbitChainId bridgeLogs
                getReceipt rest with
            | error e2 =>
              rw [hrest] at hrs
              exact Except.noConfusion hrs
            | ok rs2 => exact ⟨rs2, rfl⟩
    · intro h
      obtain ⟨o, ho⟩ := h ev (List.mem_cons_self ev rest)
      obtain ⟨rs, hrs⟩ := ih.2 (fun e he => h e (List.mem_cons_of_mem ev he))
      cases o with
      | none =>
        refine ⟨rs, ?_⟩
        rw [hcons, ho]
        exact hrs
      | some r =>
        refine ⟨r :: rs, ?_⟩
        rw [hcons, ho, hrs]

/-- Witness for the amended C7 at a concrete input: with the malformed
pair in the batch, no report exists. -/
theorem claim_c7_witness :
    ¬ ∃ rs, processInboxMessageDeliveredEvents 412346
        [sampleBridgeArgsA, sampleBridgeArgsC]
        (pureLookup (fun _ => some sampleGoodReceipt))
        [sampleInboxEventBad, sampleInboxEventGood] = .ok rs := by
  intro hex
  have h := (claim_c7_amended_batch 412346 [sampleBridgeArgsA, sampleBridgeArgsC]
      (pureLookup (fun _ => some sampleGoodReceipt))
      [sampleInboxEventBad, sampleInboxEventGood]).1 hex sampleInboxEventBad
      (List.mem_cons_self _ _)
  obtain ⟨o, ho⟩ := h
  rw [show processInboxMessageDeliveredEvent 412346
        [sampleBridgeArgsA, sampleBridgeArgsC]
        (pureLookup (fun _ => some sampleGoodReceipt)) sampleInboxEventBad =
      .error (.malformedPayload .dataSizeTooSmall) from rfl] at ho
  cases ho

/-! ## Claims C5 and C10: the Status Classifier -/

/-- Written from the wording of the claim (not from the source): the
strict-order first-match rule list.  Create receipt absent gives
NOT_CREATED; present with failure status gives CREATE_FAILED; no
redeem-schedule log (matched by event signature hash) gives
NOT_AUTOREDEEMED; execute receipt absent gives AUTOREDEEM_CREATE_FAILED;
execute receipt with failure status gives AUTOREDEEM_FAILED; otherwise
REDEEMED. -/
def specOrderedStatus (g : List Nat → Option TransactionReceipt)
    (createHash : List Nat) : RetryableStatus :=
  match g createHash with
  | none => .NOT_CREATED
  | some createReceipt =>
    if createReceipt.status = false then .CREATE_FAILED
    else
      match (createReceipt.logs.filter
          (fun log => log.topics[0]? == some RedeemScheduledEventTopic)).head? with
      | none => .NOT_AUTOREDEEMED
      | some log =>
        match g ((log.topics[2]?).getD []) with
        | none => .AUTOREDEEM_CREATE_FAILED
        | some executeReceipt =>
          if executeReceipt.status = false then .AUTOREDEEM_FAILED else .REDEEMED

/-- C5: with a collaborator whose lookups always answer and whose
RedeemScheduled logs are decodable, the classifier returns without
error exactly the status given by the ordered first-match rules of the
claim — hence exactly one of the six statuses, mutually exclusively. -/
theorem claim_c5_classifier_six_statuses (g : List Nat → Option TransactionReceipt)
    (createHash : List Nat)
    (hdec : ∀ rc, g createHash = some rc → ∀ log ∈ rc.logs,
      log.topics[0]? = some RedeemScheduledEventTopic →
      4 ≤ log.topics.length ∧ 4 * 32 ≤ log.data.length) :
    ∃ eh, classifyRetryable (pureLookup g) createHash =
      .ok (specOrderedStatus g createHash, eh) := by
  cases hg : g createHash with
  | none =>
    refine ⟨none, ?_⟩
    simp [classifyRetryable, pureLookup, specOrderedStatus, hg]
  | some rc =>
    cases hst : rc.status with
    | false =>
      refine ⟨none, ?_⟩
      simp [classifyRetryable, pureLookup, specOrderedStatus, hg, hst]
    | true =>
      cases hfind : rc.logs.find?
          (fun log => log.topics[0]? == some RedeemScheduledEventTopic) with
      | none =>
        refine ⟨none, ?_⟩
        simp [classifyRetryable, pureLookup, specOrderedStatus, hg, hst, hfind]
      | some log =>
        have htop : log.topics[0]? = some RedeemScheduledEventTopic := by
          simpa using List.find?_some hfind
        obtain ⟨hlen, hdata⟩ :=
          hdec rc hg log (List.mem_of_find?_eq_some hfind) htop
        obtain ⟨t1, ht1⟩ : ∃ t1, log.topics[1]? = some t1 :=
          ⟨_, List.getElem?_eq_getElem (by omega)⟩
        obtain ⟨t, ht⟩ : ∃ t, log.topics[2]? = some t :=
          ⟨_, List.getElem?_eq_getElem (by omega)⟩
        obtain ⟨t3, ht3⟩ : ∃ t3, log.topics[3]? = some t3 :=
          ⟨_, List.getElem?_eq_getElem (by omega)⟩
        have hnd : ¬ log.data.length < 4 * 32 := by omega
        cases hgt : g t with
        | none =>
          refine ⟨some t, ?_⟩
          simp [classifyRetryable, pureLookup, specOrderedStatus,
            decodeRedeemScheduledRetryTxHash, hg, hst, hfind, htop, ht1, ht, ht3,
            hnd, hgt]
        | some erc =>
          cases hest : erc.status with
          | false =>
            refine ⟨some t, ?_⟩
            simp [classifyRetryable, pureLookup, specOrderedStatus,
              decodeRedeemScheduledRetryTxHash, hg, hst, hfind, htop, ht1, ht, ht3,
              hnd, hgt, hest]
          | true =>
            refine ⟨some t, ?_⟩
            simp [classifyRetryable, pureLookup, specOrderedStatus,
              decodeRedeemScheduledRetryTxHash, hg, hst, hfind, htop, ht1, ht, ht3,
              hnd, hgt, hest]

/-- Witness for C5 at a concrete input: an always-absent collaborator
forces NOT_CREATED through the rule list. -/
theorem claim_c5_witness :
    ∃ eh, classifyRetryable (pureLookup (fun _ => none)) [0xAA] =
      .ok (RetryableStatus.NOT_CREATED, eh) := by
  have h := claim_c5_classifier_six_statuses (fun _ => none) [0xAA]
    (fun rc hrc => Option.noConfusion hrc)
  simpa [specOrderedStatus] using h

/-- C10: when the create receipt succeeds and its log list contains two
or more logs whose first topic is the RedeemScheduled signature hash,
the classifier reads the execution transaction hash from the first such
log in receipt order; the later matching logs do not influence the
result. -/
theorem claim_c10_first_matching_log (g : List Nat → Option TransactionReceipt)
    (createHash : List Nat) (rc : TransactionReceipt) (l1 l2 : ReceiptLog)
    (rest : List ReceiptLog) (t : List Nat)
    (hg : g createHash = some rc) (hst : rc.status = true)
    (hfil : rc.logs.filter
      (fun log => log.topics[0]? == some RedeemScheduledEventTopic) = l1 :: l2 :: rest)
    (ht : l1.topics[2]? = some t)
    (hlen : 4 ≤ l1.topics.length) (hdata : 4 * 32 ≤ l1.data.length) :
    ∃ s, classifyRetryable (pureLookup g) createHash = .ok (s, some t) := by
  have hfind : rc.logs.find?
      (fun log => log.topics[0]? == some RedeemScheduledEventTopic) = some l1 := by
    rw [← List.filter_head?, hfil]
    rfl
  have htop : l1.topics[0]? = some RedeemScheduledEventTopic := by
    simpa using List.find?_some hfind
  obtain ⟨t1, ht1⟩ : ∃ t1, l1.topics[1]? = some t1 :=
    ⟨_, List.getElem?_eq_getElem (by omega)⟩
  obtain ⟨t3, ht3⟩ : ∃ t3, l1.topics[3]? = some t3 :=
    ⟨_, List.getElem?_eq_getElem (by omega)⟩
  have hnd : ¬ l1.data.length < 4 * 32 := by omega
  cases hgt : g t with
  | none =>
    refine ⟨.AUTOREDEEM_CREATE_FAILED, ?_⟩
    simp [classifyRetryable, pureLookup, decodeRedeemScheduledRetryTxHash,
      hg, hst, hfind, htop, ht1, ht, ht3, hnd, hgt]
  | some erc =>
    cases hest : erc.status with
    | false =>
      refine ⟨.AUTOREDEEM_FAILED, ?_⟩
      simp [classifyRetryable, pureLookup, decodeRedeemScheduledRetryTxHash,
        hg, hst, hfind, htop, ht1, ht, ht3, hnd, hgt, hest]
    | true =>
      refine ⟨.REDEEMED, ?_⟩
      simp [classifyRetryable, pureLookup, decodeRedeemScheduledRetryTxHash,
        hg, hst, hfind, htop, ht1, ht, ht3, hnd, hgt, hest]

/-- A second well-formed RedeemScheduled log with a different retry
hash, placed after the first one in the sample receipt below. -/
def sampleRedeemLogLater : ReceiptLog :=
  { topics := [RedeemScheduledEventTopic, List.replicate 32 2, List.replicate 32 9,
      List.replicate 32 5]
    data := List.replicate 128 0 }

/-- A successful create receipt with two RedeemScheduled logs. -/
def sampleTwoLogReceipt : TransactionReceipt :=
  { status := true
    logs := [sampleRedeemLog, sampleRedeemLogLater] }

/-- A collaborator returning the two-log receipt for the create hash and
an empty successful receipt for anything else. -/
def sampleTwoLogLookup : List Nat → Option TransactionReceipt :=
  fun h => if h = [0xAA] then some sampleTwoLogReceipt else some { status := true, logs := [] }

/-- Witness for C10 at a concrete input: the execute hash is the one of
the first matching log. -/
theorem claim_c10_witness :
    ∃ s, classifyRetryable (pureLookup sampleTwoLogLookup) [0xAA] =
      .ok (s, some sampleRetryTxHash) := by
  refine claim_c10_first_matching_log sampleTwoLogLookup [0xAA] sampleTwoLogReceipt
    sampleRedeemLog sampleRedeemLogLater [] sampleRetryTxHash ?_ rfl ?_ rfl
    (by decide) (by decide)
  · rfl
  · show (sampleTwoLogReceipt.logs.filter
      (fun log => log.topics[0]? == some RedeemScheduledEventTopic)) = _
    simp [sampleTwoLogReceipt, sampleRedeemLog, sampleRedeemLogLater, List.filter]

end PendingRetryables
